import Mathlib

/-!
Shallow embedding of the watch-party synchronization engine.

The definitions below translate the TypeScript sources of the repository:

* `extractVideoId` and its helpers embed
  `packages/shared/src/index.ts` (`extractVideoId`), including the two
  regular expressions it matches against, with JavaScript leftmost-match
  and greedy-backtracking semantics made explicit.
* `SessionState`, `getAuthoritativeTime`, `updateSessionState` and the
  event handlers embed `apps/server/src/server.ts` (the session store,
  the play/pause/seek/changeVideo socket handlers, the per-socket
  rate limiter for changeVideo, and the Redis subscriber handler).
* The client-side broadcast handlers embed
  `apps/client/src/hooks/useSessionState.ts`.

Machine numbers are modelled as `ℚ` (times, milliseconds) and `ℤ`
(sequence counters).  Each handler receives the wall-clock reading
`now` as an explicit argument, standing for the `Date.now()` calls made
while that event is processed.
-/

namespace WatchParty

/-- Characters admitted by the character class `[a-zA-Z0-9_-]` used in
every video-id regular expression of `extractVideoId`. -/
def isIdChar (c : Char) : Bool :=
  decide ('a' ≤ c ∧ c ≤ 'z') || decide ('A' ≤ c ∧ c ≤ 'Z') ||
    decide ('0' ≤ c ∧ c ≤ '9') || c == '_' || c == '-'

/-- Boolean prefix test on character lists (the literal part of a
regular-expression alternative matching at the current position). -/
def isPrefixChars : List Char → List Char → Bool
  | [], _ => true
  | _ :: _, [] => false
  | p :: ps, c :: cs => p == c && isPrefixChars ps cs

/-- The capture group `([a-zA-Z0-9_-]{11})`: succeeds when the next
eleven characters exist and all lie in the id alphabet, returning
exactly those eleven characters. -/
def takeId11 (l : List Char) : Option (List Char) :=
  if (l.take 11).length = 11 ∧ (l.take 11).all isIdChar then some (l.take 11) else none

/-- One alternative of the first pattern: its literal followed by the
eleven-character capture group. -/
def tryAlt (pat l : List Char) : Option (List Char) :=
  if isPrefixChars pat l then takeId11 (l.drop pat.length) else none

/-- First regular expression of `extractVideoId`:
`(?:youtube.com/watch?v=|youtu.be/|youtube.com/embed/)([a-zA-Z0-9_-]11)`
searched at every position from the left, alternatives tried in order. -/
def scanPattern1 : List Char → Option (List Char)
  | [] => none
  | c :: rest =>
    match tryAlt ("youtube.com/watch?v=".data) (c :: rest) <|>
        tryAlt ("youtu.be/".data) (c :: rest) <|>
        tryAlt ("youtube.com/embed/".data) (c :: rest) with
    | some r => some r
    | none => scanPattern1 rest

/-- The suffix `&v=([a-zA-Z0-9_-]11)` of the second pattern, reached
through a greedy `.*`: the unescaped dot does not cross a newline, and
greediness with backtracking selects the last position (before any
newline) where `&v=` is followed by the capture group. -/
def findLastAmpV : List Char → Option (List Char)
  | [] => none
  | c :: rest =>
    if c = '\n' then none
    else
      match findLastAmpV rest with
      | some r => some r
      | none =>
        if isPrefixChars ("&v=".data) (c :: rest) then
          takeId11 ((c :: rest).drop 3)
        else none

/-- Second regular expression of `extractVideoId`:
`youtube.com/watch?.*&v=([a-zA-Z0-9_-]11)` searched at every position
from the left. -/
def scanPattern2 : List Char → Option (List Char)
  | [] => none
  | c :: rest =>
    match
      (if isPrefixChars ("youtube.com/watch?".data) (c :: rest) then
        findLastAmpV ((c :: rest).drop ("youtube.com/watch?".data).length)
      else none) with
    | some r => some r
    | none => scanPattern2 rest

/-- `extractVideoId` from `packages/shared/src/index.ts`: empty input
is refused, a bare eleven-character id from the alphabet is returned
as-is, and otherwise the two URL patterns are tried in order. -/
def extractVideoId (url : String) : Option String :=
  if url = "" then none
  else if url.data.length = 11 ∧ url.data.all isIdChar then some url
  else
    match scanPattern1 url.data with
    | some r => some (String.mk r)
    | none =>
      match scanPattern2 url.data with
      | some r => some (String.mk r)
      | none => none

lemma takeId11_spec {l r : List Char} (h : takeId11 l = some r) :
    r.length = 11 ∧ r.all isIdChar = true := by
  unfold takeId11 at h
  split at h
  · rename_i hc
    cases h
    exact ⟨hc.1, hc.2⟩
  · exact absurd h (by simp)

lemma tryAlt_spec {pat l r : List Char} (h : tryAlt pat l = some r) :
    r.length = 11 ∧ r.all isIdChar = true := by
  unfold tryAlt at h
  split at h
  · exact takeId11_spec h
  · exact absurd h (by simp)

lemma scanPattern1_spec {l r : List Char} (h : scanPattern1 l = some r) :
    r.length = 11 ∧ r.all isIdChar = true := by
  induction l with
  | nil => simp [scanPattern1] at h
  | cons c rest ih =>
    rw [scanPattern1] at h
    split at h
    · rename_i o ho
      cases h
      rcases (Option.orElse_eq_some _ _ _).mp ho with h1 | ⟨_, h1⟩
      · exact tryAlt_spec h1
      · rcases (Option.orElse_eq_some _ _ _).mp h1 with h2 | ⟨_, h2⟩
        · exact tryAlt_spec h2
        · exact tryAlt_spec h2
    · exact ih h

lemma findLastAmpV_spec {l r : List Char} (h : findLastAmpV l = some r) :
    r.length = 11 ∧ r.all isIdChar = true := by
  induction l with
  | nil => simp [findLastAmpV] at h
  | cons c rest ih =>
    rw [findLastAmpV] at h
    split at h
    · simp at h
    · split at h
      · rename_i r2 hr2
        cases h
        exact ih hr2
      · split at h
        · exact takeId11_spec h
        · simp at h

lemma scanPattern2_spec {l r : List Char} (h : scanPattern2 l = some r) :
    r.length = 11 ∧ r.all isIdChar = true := by
  induction l with
  | nil => simp [scanPattern2] at h
  | cons c rest ih =>
    rw [scanPattern2] at h
    split at h
    · rename_i o ho
      cases h
      split at ho
      · exact findLastAmpV_spec ho
      · simp at ho
    · exact ih h

/-- C10: for every input string, `extractVideoId` returns either `none`
or a string of exactly eleven characters, all from the id alphabet
`[A-Za-z0-9_-]`. -/
theorem extractVideoId_shape :
    ∀ (url id : String), extractVideoId url = some id →
      id.data.length = 11 ∧ id.data.all isIdChar = true := by
  intro url id h
  unfold extractVideoId at h
  split at h
  · simp at h
  · split at h
    · rename_i hc
      cases h
      exact ⟨hc.1, hc.2⟩
    · split at h
      · rename_i r hr
        cases h
        exact scanPattern1_spec hr
      · split at h
        · rename_i r hr
          cases h
          exact scanPattern2_spec hr
        · simp at h

/-- Witness for C10: evaluating `extractVideoId` on a concrete URL. -/
theorem extractVideoId_shape_witness :
    extractVideoId ("youtu.be/dQw4w9WgXcQ") = some ("dQw4w9WgXcQ") ∧
      ("dQw4w9WgXcQ" : String).data.length = 11 ∧
      ("dQw4w9WgXcQ" : String).data.all isIdChar = true :=
  ⟨by decide, extractVideoId_shape ("youtu.be/dQw4w9WgXcQ") ("dQw4w9WgXcQ") (by decide)⟩

/-- The session record of `packages/shared/src/index.ts`
(`SessionState`), held as the single in-memory session of
`apps/server/src/server.ts`. -/
structure SessionState where
  videoId : String
  playbackTime : ℚ
  isPlaying : Bool
  lastAction : String
  lastActionBy : String
  seq : ℤ
  lastUpdatedAt : ℚ
deriving DecidableEq

/-- The initial `sessionState` literal of `server.ts`; `t0` stands for
the `Date.now()` read at process start. -/
def initialSessionState (t0 : ℚ) : SessionState :=
  { videoId := ""
    playbackTime := 0
    isPlaying := false
    lastAction := "init"
    lastActionBy := "system"
    seq := 0
    lastUpdatedAt := t0 }

/-- `getAuthoritativeTime` of `server.ts`: the stored position when
paused, otherwise the stored position plus the elapsed wall-clock
milliseconds divided by 1000. -/
def getAuthoritativeTime (now : ℚ) (s : SessionState) : ℚ :=
  if s.isPlaying = false then s.playbackTime
  else s.playbackTime + (now - s.lastUpdatedAt) / 1000

/-- A `Partial SessionState` argument of `updateSessionState`: each
field optionally supplied.  The TypeScript spread allows callers to
put `seq` or `lastUpdatedAt` into the partial too; the explicit
overrides after the spread make those entries dead, which the theorem
`updateSessionState_spec` records. -/
structure SessionUpdate where
  videoId : Option String := none
  playbackTime : Option ℚ := none
  isPlaying : Option Bool := none
  lastAction : Option String := none
  lastActionBy : Option String := none
  seq : Option ℤ := none
  lastUpdatedAt : Option ℚ := none

/-- `updateSessionState` of `server.ts`: spread of the previous state,
then the partial update, then the explicit `playbackTime` carry-forward
(`update.playbackTime ?? currentTime`), `seq + 1`, and a fresh
`Date.now()` for `lastUpdatedAt`. -/
def updateSessionState (now : ℚ) (s : SessionState) (u : SessionUpdate) : SessionState :=
  { videoId := u.videoId.getD s.videoId
    playbackTime := u.playbackTime.getD (getAuthoritativeTime now s)
    isPlaying := u.isPlaying.getD s.isPlaying
    lastAction := u.lastAction.getD s.lastAction
    lastActionBy := u.lastActionBy.getD s.lastActionBy
    seq := s.seq + 1
    lastUpdatedAt := now }

/-- Payload of the play/pause/seek broadcasts of `server.ts`
(`SessionPlayBroadcast` and the two identical siblings). -/
structure PlaybackBroadcast where
  time : ℚ
  seq : ℤ
  lastUpdatedAt : ℚ
deriving DecidableEq

/-- Payload of the `session:videoChange` broadcast of `server.ts`. -/
structure VideoChangeBroadcast where
  videoId : String
  seq : ℤ
  lastUpdatedAt : ℚ
deriving DecidableEq

/-- The `session:play` socket handler of `server.ts`; `clientId` is
`socket.id.substring(0, 8)`. -/
def handlePlay (now : ℚ) (clientId : String) (time : ℚ) (s : SessionState) :
    SessionState × PlaybackBroadcast :=
  let s2 := updateSessionState now s
    { isPlaying := some true
      playbackTime := some time
      lastAction := some ("play")
      lastActionBy := some clientId }
  (s2, { time := getAuthoritativeTime now s2, seq := s2.seq, lastUpdatedAt := s2.lastUpdatedAt })

/-- The `session:pause` socket handler of `server.ts`. -/
def handlePause (now : ℚ) (clientId : String) (time : ℚ) (s : SessionState) :
    SessionState × PlaybackBroadcast :=
  let s2 := updateSessionState now s
    { isPlaying := some false
      playbackTime := some time
      lastAction := some ("pause")
      lastActionBy := some clientId }
  (s2, { time := getAuthoritativeTime now s2, seq := s2.seq, lastUpdatedAt := s2.lastUpdatedAt })

/-- The `session:seek` socket handler of `server.ts` (leaves
`isPlaying` untouched). -/
def handleSeek (now : ℚ) (clientId : String) (time : ℚ) (s : SessionState) :
    SessionState × PlaybackBroadcast :=
  let s2 := updateSessionState now s
    { playbackTime := some time
      lastAction := some ("seek")
      lastActionBy := some clientId }
  (s2, { time := getAuthoritativeTime now s2, seq := s2.seq, lastUpdatedAt := s2.lastUpdatedAt })

/-- Result of one `session:changeVideo` event: the session state, the
socket's entry in `lastChangeVideoBySocket`, and the broadcast if one
was emitted. -/
structure ChangeVideoResult where
  state : SessionState
  lastChange : Option ℚ
  broadcast : Option VideoChangeBroadcast
deriving DecidableEq

/-- The `session:changeVideo` socket handler of `server.ts`:
`extractVideoId(data.videoId) || data.videoId` falls back to the raw
input when extraction fails, the falsy check rejects only the empty
string, and the per-socket rate limiter drops intents arriving less
than 2000 ms after the previous accepted one.  `lastChange` is this
socket's entry in `lastChangeVideoBySocket` (its only live key). -/
def handleChangeVideo (now : ℚ) (clientId : String) (lastChange : Option ℚ)
    (input : String) (s : SessionState) : ChangeVideoResult :=
  let videoId := (extractVideoId input).getD input
  if videoId = "" then { state := s, lastChange := lastChange, broadcast := none }
  else if now - lastChange.getD 0 < 2000 then
    { state := s, lastChange := lastChange, broadcast := none }
  else
    let s2 := updateSessionState now s
      { videoId := some videoId
        playbackTime := some 0
        isPlaying := some false
        lastAction := some ("changeVideo")
        lastActionBy := some clientId }
    { state := s2
      lastChange := some now
      broadcast := some { videoId := videoId, seq := s2.seq, lastUpdatedAt := s2.lastUpdatedAt } }

/-- The guard of `handleVideoChange` in the modular server variant
(`src/unnamed/part_003`): extraction must succeed and the result must
be truthy, eleven characters long and pass the alphabet test, otherwise
the intent is silently rejected. -/
def handleVideoChangeAccepts (input : String) : Bool :=
  match extractVideoId input with
  | none => false
  | some v => decide (v ≠ "") && decide (v.data.length = 11) && v.data.all isIdChar

/-- The Redis subscriber `message` handler of `server.ts`: an incoming
state with `seq <= sessionState.seq` is ignored; a strictly newer one
replaces the local state and is re-broadcast to local sockets (the
boolean records whether `broadcastFullSessionUpdate` ran). -/
def subscriberStep (incoming s : SessionState) : SessionState × Bool :=
  if incoming.seq ≤ s.seq then (s, false) else (incoming, true)

/-- C4: `updateSessionState` merges the supplied fields over the
previous state, uses the carried-forward authoritative time when no
`playbackTime` is supplied, increments `seq` by one, and stamps
`lastUpdatedAt` with the server clock regardless of any client-supplied
`seq` or `lastUpdatedAt` entry in the partial update; Scenario A:
applying a play intent with time 12 to a paused state at position 10
with `seq = 0` yields a playing state at position 12 with `seq = 1`,
broadcast with `seq = 1` and time 12. -/
theorem updateSessionState_spec :
    (∀ (now : ℚ) (s : SessionState) (u : SessionUpdate),
      (updateSessionState now s u).playbackTime
          = u.playbackTime.getD (getAuthoritativeTime now s)
        ∧ (updateSessionState now s u).seq = s.seq + 1
        ∧ (updateSessionState now s u).lastUpdatedAt = now
        ∧ (updateSessionState now s u).isPlaying = u.isPlaying.getD s.isPlaying
        ∧ (updateSessionState now s u).videoId = u.videoId.getD s.videoId
        ∧ (updateSessionState now s u).lastAction = u.lastAction.getD s.lastAction
        ∧ (updateSessionState now s u).lastActionBy = u.lastActionBy.getD s.lastActionBy)
    ∧ (∀ (now t0 : ℚ),
      handlePlay now ("c1") 12
          { videoId := "v", playbackTime := 10, isPlaying := false,
            lastAction := "init", lastActionBy := "system", seq := 0, lastUpdatedAt := t0 }
        = (⟨"v", 12, true, "play", "c1", 1, now⟩, ⟨12, 1, now⟩)) := by
  constructor
  · intro now s u
    exact ⟨rfl, rfl, rfl, rfl, rfl, rfl, rfl⟩
  · intro now t0
    unfold handlePlay updateSessionState getAuthoritativeTime
    simp [sub_self, zero_div]

/-- C5: `getAuthoritativeTime` returns `playbackTime` unchanged when
paused, `playbackTime + (now - lastUpdatedAt) / 1000` when playing,
and with no intervening mutation two observations while playing differ
by exactly the elapsed wall-clock time divided by 1000. -/
theorem getAuthoritativeTime_spec :
    (∀ (now : ℚ) (s : SessionState), s.isPlaying = false →
      getAuthoritativeTime now s = s.playbackTime)
    ∧ (∀ (now : ℚ) (s : SessionState), s.isPlaying = true →
      getAuthoritativeTime now s = s.playbackTime + (now - s.lastUpdatedAt) / 1000)
    ∧ (∀ (t1 t2 : ℚ) (s : SessionState), s.isPlaying = true → t1 < t2 →
      getAuthoritativeTime t2 s - getAuthoritativeTime t1 s = (t2 - t1) / 1000) := by
  refine ⟨?_, ?_, ?_⟩
  · intro now s h
    simp [getAuthoritativeTime, h]
  · intro now s h
    simp [getAuthoritativeTime, h]
  · intro t1 t2 s h _
    simp only [getAuthoritativeTime, h]
    norm_num
    ring

/-- Witness for C5 at a concrete playing state and the observation
times 1000 and 3000. -/
theorem getAuthoritativeTime_spec_witness :
    ({ videoId := "v", playbackTime := 5, isPlaying := true, lastAction := "play",
        lastActionBy := "c1", seq := 1, lastUpdatedAt := 500 } : SessionState).isPlaying = true
    ∧ (1000 : ℚ) < 3000
    ∧ getAuthoritativeTime 3000
          { videoId := "v", playbackTime := 5, isPlaying := true, lastAction := "play",
            lastActionBy := "c1", seq := 1, lastUpdatedAt := 500 }
        - getAuthoritativeTime 1000
          { videoId := "v", playbackTime := 5, isPlaying := true, lastAction := "play",
            lastActionBy := "c1", seq := 1, lastUpdatedAt := 500 }
        = ((3000 : ℚ) - 1000) / 1000 :=
  ⟨rfl, by norm_num,
    getAuthoritativeTime_spec.2.2 1000 3000
      { videoId := "v", playbackTime := 5, isPlaying := true, lastAction := "play",
        lastActionBy := "c1", seq := 1, lastUpdatedAt := 500 } rfl (by norm_num)⟩

/-- C8: the subscriber adopts an incoming replicated state and
re-broadcasts exactly when its `seq` is strictly greater than the local
one; otherwise (equality included) the message is dropped and the local
state is unchanged. -/
theorem subscriber_adopts_iff_newer :
    ∀ (incoming s : SessionState),
      (s.seq < incoming.seq → subscriberStep incoming s = (incoming, true))
      ∧ (incoming.seq ≤ s.seq → subscriberStep incoming s = (s, false)) := by
  intro incoming s
  constructor
  · intro h
    simp [subscriberStep, not_le.mpr h]
  · intro h
    simp [subscriberStep, h]

/-- Witness for C8: a strictly newer incoming state is adopted, an
equal-`seq` one is dropped. -/
theorem subscriber_adopts_iff_newer_witness :
    subscriberStep (initialSessionState 7) (initialSessionState 0) = (initialSessionState 0, false) :=
  (subscriber_adopts_iff_newer (initialSessionState 7) (initialSessionState 0)).2 (by decide)

/-- C1 (code bug): the `session:changeVideo` handler of `server.ts`
accepts the input string `not-a-valid-id!`, which is not a bare
eleven-character identifier and matches none of the URL forms
(`extractVideoId` returns `none` and the modular variant's guard
rejects it): the `|| data.videoId` fallback adopts the raw input, the
session mutates (`videoId` becomes the raw string, `seq` advances) and
a broadcast is emitted, contradicting the claimed silent rejection. -/
theorem changeVideo_accepts_invalid_input :
    extractVideoId ("not-a-valid-id!") = none
    ∧ handleVideoChangeAccepts ("not-a-valid-id!") = false
    ∧ (handleChangeVideo 5000 ("c1") none ("not-a-valid-id!")
        (initialSessionState 0)).broadcast.isSome = true
    ∧ (handleChangeVideo 5000 ("c1") none ("not-a-valid-id!")
        (initialSessionState 0)).state.videoId = "not-a-valid-id!"
    ∧ (handleChangeVideo 5000 ("c1") none ("not-a-valid-id!")
        (initialSessionState 0)).state.seq = 1 := by
  have hext : extractVideoId ("not-a-valid-id!") = none := by decide
  have heval : handleChangeVideo 5000 ("c1") none ("not-a-valid-id!") (initialSessionState 0)
      = { state := updateSessionState 5000 (initialSessionState 0)
            { videoId := some ("not-a-valid-id!")
              playbackTime := some 0
              isPlaying := some false
              lastAction := some ("changeVideo")
              lastActionBy := some ("c1") },
          lastChange := some 5000,
          broadcast := some { videoId := "not-a-valid-id!", seq := 1, lastUpdatedAt := 5000 } } := by
    simp only [handleChangeVideo, hext, Option.getD_none]
    rw [if_neg (by decide), if_neg (by norm_num)]
    rfl
  refine ⟨hext, by decide, ?_, ?_, ?_⟩ <;> rw [heval] <;> rfl

/-- C6: once a `session:changeVideo` intent has been accepted at time
`now1`, a second intent on the same socket arriving within the 2000 ms
cooldown window is silently dropped: the session state and the rate
limiter entry are unchanged, no broadcast is emitted, and `seq` has
advanced only once across the two intents. -/
theorem changeVideo_rate_limited :
    ∀ (now1 now2 : ℚ) (cid in1 in2 : String) (lc : Option ℚ) (s : SessionState),
      (handleChangeVideo now1 cid lc in1 s).broadcast.isSome = true →
      now2 - now1 < 2000 →
      handleChangeVideo now2 cid (handleChangeVideo now1 cid lc in1 s).lastChange in2
          (handleChangeVideo now1 cid lc in1 s).state
        = { state := (handleChangeVideo now1 cid lc in1 s).state,
            lastChange := (handleChangeVideo now1 cid lc in1 s).lastChange,
            broadcast := none }
      ∧ (handleChangeVideo now1 cid lc in1 s).state.seq = s.seq + 1 := by
  intro now1 now2 cid in1 in2 lc s hacc hwin
  by_cases h1 : (extractVideoId in1).getD in1 = ""
  · simp [handleChangeVideo, h1] at hacc
  · by_cases h2 : now1 - lc.getD 0 < 2000
    · simp [handleChangeVideo, if_neg h1, h2] at hacc
    · have hlast : (handleChangeVideo now1 cid lc in1 s).lastChange = some now1 := by
        simp only [handleChangeVideo]
        rw [if_neg h1, if_neg h2]
      have hseq : (handleChangeVideo now1 cid lc in1 s).state.seq = s.seq + 1 := by
        simp only [handleChangeVideo]
        rw [if_neg h1, if_neg h2]
        rfl
      refine ⟨?_, hseq⟩
      rw [hlast]
      simp only [handleChangeVideo]
      by_cases h3 : (extractVideoId in2).getD in2 = ""
      · rw [if_pos h3]
      · rw [if_neg h3, if_pos (by simpa using hwin)]

/-- Witness for C6: two valid intents 500 ms apart on one socket. -/
theorem changeVideo_rate_limited_witness :
    (handleChangeVideo 10000 ("c1") none ("dQw4w9WgXcQ")
        (initialSessionState 0)).broadcast.isSome = true
    ∧ (10500 : ℚ) - 10000 < 2000
    ∧ (handleChangeVideo 10500 ("c1")
          (handleChangeVideo 10000 ("c1") none ("dQw4w9WgXcQ") (initialSessionState 0)).lastChange
          ("dQw4w9WgXcQ")
          (handleChangeVideo 10000 ("c1") none ("dQw4w9WgXcQ") (initialSessionState 0)).state
        = { state := (handleChangeVideo 10000 ("c1") none ("dQw4w9WgXcQ")
              (initialSessionState 0)).state,
            lastChange := (handleChangeVideo 10000 ("c1") none ("dQw4w9WgXcQ")
              (initialSessionState 0)).lastChange,
            broadcast := none }
        ∧ (handleChangeVideo 10000 ("c1") none ("dQw4w9WgXcQ")
            (initialSessionState 0)).state.seq = (initialSessionState 0).seq + 1) := by
  have h1 : (handleChangeVideo 10000 ("c1") none ("dQw4w9WgXcQ")
      (initialSessionState 0)).broadcast.isSome = true := by
    have hext : extractVideoId ("dQw4w9WgXcQ") = some ("dQw4w9WgXcQ") := by decide
    simp only [handleChangeVideo, hext, Option.getD_some, Option.getD_none]
    rw [if_neg (by decide), if_neg (by norm_num)]
    rfl
  exact ⟨h1, by norm_num,
    changeVideo_rate_limited 10000 10500 ("c1") ("dQw4w9WgXcQ") ("dQw4w9WgXcQ") none
      (initialSessionState 0) h1 (by norm_num)⟩

/-- One event processed by the server event loop: the four client
intents handled by `io.on` in `server.ts`, or one parsed message
arriving on the Redis subscription channel. -/
inductive ServerEvent where
  | play (clientId : String) (time : ℚ)
  | pause (clientId : String) (time : ℚ)
  | seek (clientId : String) (time : ℚ)
  | changeVideo (clientId : String) (input : String)
  | pubsub (incoming : SessionState)

/-- Whether an event is a local client intent (as opposed to a
replicated state arriving over pub/sub). -/
def ServerEvent.isLocal : ServerEvent → Bool
  | .pubsub _ => false
  | _ => true

/-- Server-side mutable context threaded through the event loop: the
session state plus the per-socket `lastChangeVideoBySocket` entries. -/
structure ServerRunState where
  state : SessionState
  lastChange : String → Option ℚ

/-- One dispatch of the server event loop; the boolean reports whether
`updateSessionState` ran for this event (an accepted mutation). -/
def serverStep (now : ℚ) (e : ServerEvent) (rs : ServerRunState) : ServerRunState × Bool :=
  match e with
  | .play cid t => ({ rs with state := (handlePlay now cid t rs.state).1 }, true)
  | .pause cid t => ({ rs with state := (handlePause now cid t rs.state).1 }, true)
  | .seek cid t => ({ rs with state := (handleSeek now cid t rs.state).1 }, true)
  | .changeVideo cid input =>
    let r := handleChangeVideo now cid (rs.lastChange cid) input rs.state
    ({ state := r.state,
       lastChange := fun k => if k = cid then r.lastChange else rs.lastChange k },
     r.broadcast.isSome)
  | .pubsub incoming => ({ rs with state := (subscriberStep incoming rs.state).1 }, false)

/-- Folding a timestamped event list through the server event loop;
the second component counts the accepted mutations. -/
def runServer : ServerRunState → List (ℚ × ServerEvent) → ServerRunState × ℕ
  | rs, [] => (rs, 0)
  | rs, (now, e) :: rest =>
    let r := serverStep now e rs
    let r2 := runServer r.1 rest
    (r2.1, (if r.2 then 1 else 0) + r2.2)

lemma serverStep_seq_le (now : ℚ) (e : ServerEvent) (rs : ServerRunState) :
    rs.state.seq ≤ ((serverStep now e rs).1).state.seq := by
  cases e with
  | play cid t => simp [serverStep, handlePlay, updateSessionState]
  | pause cid t => simp [serverStep, handlePause, updateSessionState]
  | seek cid t => simp [serverStep, handleSeek, updateSessionState]
  | changeVideo cid input =>
    simp only [serverStep, handleChangeVideo]
    split
    · simp
    · split
      · simp
      · simp [updateSessionState]
  | pubsub incoming =>
    simp only [serverStep, subscriberStep]
    split
    · simp
    · rename_i h
      simp only
      omega

lemma serverStep_accepted_seq (now : ℚ) (e : ServerEvent) (rs : ServerRunState)
    (h : (serverStep now e rs).2 = true) :
    ((serverStep now e rs).1).state.seq = rs.state.seq + 1 := by
  cases e with
  | play cid t => rfl
  | pause cid t => rfl
  | seek cid t => rfl
  | changeVideo cid input =>
    simp only [serverStep, handleChangeVideo] at h ⊢
    split at h
    · simp at h
    · split at h
      · simp at h
      · rename_i h1 h2
        rw [if_neg h1, if_neg h2]
        rfl
  | pubsub incoming => simp [serverStep] at h

lemma serverStep_rejected_seq (now : ℚ) (e : ServerEvent) (rs : ServerRunState)
    (hl : e.isLocal = true) (h : (serverStep now e rs).2 = false) :
    ((serverStep now e rs).1).state.seq = rs.state.seq := by
  cases e with
  | play cid t => simp [serverStep] at h
  | pause cid t => simp [serverStep] at h
  | seek cid t => simp [serverStep] at h
  | changeVideo cid input =>
    simp only [serverStep, handleChangeVideo] at h ⊢
    split at h
    · rename_i h1
      rw [if_pos h1]
    · split at h
      · rename_i h1 h2
        rw [if_neg h1, if_pos h2]
      · simp at h
  | pubsub incoming => simp [ServerEvent.isLocal] at hl

lemma runServer_seq_local (evs : List (ℚ × ServerEvent)) (rs : ServerRunState)
    (h : ∀ p ∈ evs, (Prod.snd p).isLocal = true) :
    ((runServer rs evs).1).state.seq = rs.state.seq + ((runServer rs evs).2 : ℤ) := by
  induction evs generalizing rs with
  | nil => simp [runServer]
  | cons p rest ih =>
    obtain ⟨now, e⟩ := p
    have hloc : e.isLocal = true := h (now, e) (List.mem_cons_self _ _)
    have hrest : ∀ q ∈ rest, (Prod.snd q).isLocal = true :=
      fun q hq => h q (List.mem_cons_of_mem _ hq)
    simp only [runServer]
    rw [ih _ hrest]
    by_cases hacc : (serverStep now e rs).2 = true
    · rw [serverStep_accepted_seq now e rs hacc, hacc]
      simp
      omega
    · rw [serverStep_rejected_seq now e rs hloc (by simpa using hacc)]
      simp only [Bool.not_eq_true] at hacc
      rw [hacc]
      simp

/-- C2: within one process lifetime the sequence counter starts at 0,
never decreases at any event-loop step (pub/sub adoption requires a
strictly greater incoming `seq`), every accepted mutation increments it
by exactly one, a rejected local intent leaves it unchanged, and over
any run of purely local events the final `seq` equals the initial one
plus the number of accepted mutations — strictly increasing, no gaps,
no repeats. -/
theorem seq_strictly_increasing :
    (∀ t0 : ℚ, (initialSessionState t0).seq = 0)
    ∧ (∀ (now : ℚ) (e : ServerEvent) (rs : ServerRunState),
        rs.state.seq ≤ ((serverStep now e rs).1).state.seq)
    ∧ (∀ (now : ℚ) (e : ServerEvent) (rs : ServerRunState),
        (serverStep now e rs).2 = true →
        ((serverStep now e rs).1).state.seq = rs.state.seq + 1)
    ∧ (∀ (now : ℚ) (e : ServerEvent) (rs : ServerRunState),
        e.isLocal = true → (serverStep now e rs).2 = false →
        ((serverStep now e rs).1).state.seq = rs.state.seq)
    ∧ (∀ (rs : ServerRunState) (evs : List (ℚ × ServerEvent)),
        (∀ p ∈ evs, (Prod.snd p).isLocal = true) →
        ((runServer rs evs).1).state.seq = rs.state.seq + ((runServer rs evs).2 : ℤ)) :=
  ⟨fun _ => rfl, serverStep_seq_le, serverStep_accepted_seq, serverStep_rejected_seq,
    fun rs evs h => runServer_seq_local evs rs h⟩

/-- Witness for C2: a run of three local events (play, seek, pause)
from the initial state accepts all three and ends at `seq = 3`. -/
theorem seq_strictly_increasing_witness :
    (∀ p ∈ [((1000 : ℚ), ServerEvent.play ("c1") 5),
            ((2000 : ℚ), ServerEvent.seek ("c1") 9),
            ((3000 : ℚ), ServerEvent.pause ("c1") 10)], (Prod.snd p).isLocal = true)
    ∧ ((runServer { state := initialSessionState 0, lastChange := fun _ => none }
          [((1000 : ℚ), ServerEvent.play ("c1") 5),
           ((2000 : ℚ), ServerEvent.seek ("c1") 9),
           ((3000 : ℚ), ServerEvent.pause ("c1") 10)]).1).state.seq
        = (initialSessionState 0).seq
          + ((runServer { state := initialSessionState 0, lastChange := fun _ => none }
              [((1000 : ℚ), ServerEvent.play ("c1") 5),
               ((2000 : ℚ), ServerEvent.seek ("c1") 9),
               ((3000 : ℚ), ServerEvent.pause ("c1") 10)]).2 : ℤ) := by
  constructor
  · intro p hp
    simp only [List.mem_cons, List.not_mem_nil, or_false] at hp
    rcases hp with h | h | h <;> subst h <;> rfl
  · exact seq_strictly_increasing.2.2.2.2
      { state := initialSessionState 0, lastChange := fun _ => none } _
      (by
        intro p hp
        simp only [List.mem_cons, List.not_mem_nil, or_false] at hp
        rcases hp with h | h | h <;> subst h <;> rfl)

/-- Non-negativity of the client-supplied time hint carried by a local
mutation; pub/sub adoptions are excluded (they are not accepted local
mutations). -/
def eventTimeNonneg : ServerEvent → Prop
  | .play _ t => 0 ≤ t
  | .pause _ t => 0 ≤ t
  | .seek _ t => 0 ≤ t
  | .changeVideo _ _ => True
  | .pubsub _ => False

/-- A timestamped event list whose wall-clock readings never go
backwards starting from `t`, made of local mutations with non-negative
time hints. -/
def ChainFrom : ℚ → List (ℚ × ServerEvent) → Prop
  | _, [] => True
  | t, (now, e) :: rest => t ≤ now ∧ eventTimeNonneg e ∧ ChainFrom now rest

/-- The wall-clock reading of the last event of the chain (or the
start reading for an empty chain). -/
def chainEnd : ℚ → List (ℚ × ServerEvent) → ℚ
  | t, [] => t
  | _, (now, _) :: rest => chainEnd now rest

lemma serverStep_nonneg_invariant (now : ℚ) (e : ServerEvent) (rs : ServerRunState)
    (hpb : 0 ≤ rs.state.playbackTime) (hle : rs.state.lastUpdatedAt ≤ now)
    (he : eventTimeNonneg e) :
    0 ≤ ((serverStep now e rs).1).state.playbackTime
      ∧ ((serverStep now e rs).1).state.lastUpdatedAt ≤ now := by
  cases e with
  | play cid t => exact ⟨he, le_refl _⟩
  | pause cid t => exact ⟨he, le_refl _⟩
  | seek cid t => exact ⟨he, le_refl _⟩
  | changeVideo cid input =>
    simp only [serverStep, handleChangeVideo]
    split
    · exact ⟨hpb, hle⟩
    · split
      · exact ⟨hpb, hle⟩
      · exact ⟨le_refl _, le_refl _⟩
  | pubsub incoming => exact absurd he (by simp [eventTimeNonneg])

lemma runServer_nonneg_invariant (evs : List (ℚ × ServerEvent)) (rs : ServerRunState)
    (t : ℚ) (hpb : 0 ≤ rs.state.playbackTime) (hle : rs.state.lastUpdatedAt ≤ t)
    (hc : ChainFrom t evs) :
    0 ≤ ((runServer rs evs).1).state.playbackTime
      ∧ ((runServer rs evs).1).state.lastUpdatedAt ≤ chainEnd t evs := by
  induction evs generalizing rs t with
  | nil => exact ⟨hpb, hle⟩
  | cons p rest ih =>
    obtain ⟨now, e⟩ := p
    obtain ⟨htn, hen, hcr⟩ := hc
    have hstep := serverStep_nonneg_invariant now e rs hpb (le_trans hle htn) hen
    simpa only [runServer, chainEnd] using
      ih (serverStep now e rs).1 now hstep.1 hstep.2 hcr

/-- C9 counterexample: the claim fails as stated because client time
hints are not bounds-checked.  From the initial state, the single
accepted mutation `pause` with client-supplied time -1 is a reachable
state on which `getAuthoritativeTime` is negative. -/
theorem authoritativeTime_negative_reachable :
    getAuthoritativeTime 2000
        ((runServer { state := initialSessionState 0, lastChange := fun _ => none }
          [((1000 : ℚ), ServerEvent.pause ("c1") (-1))]).1).state < 0 := by
  show getAuthoritativeTime 2000
      ((serverStep 1000 (ServerEvent.pause ("c1") (-1))
        { state := initialSessionState 0, lastChange := fun _ => none }).1).state < 0
  simp only [serverStep, handlePause, updateSessionState, getAuthoritativeTime]
  norm_num

/-- C9 amended: for every state reachable from the initial state by a
chain of local mutations whose client-supplied time hints are all
non-negative, evaluated at nondecreasing wall-clock readings,
`getAuthoritativeTime` is non-negative at any reading at or after the
last mutation. -/
theorem authoritativeTime_nonneg :
    ∀ (t0 nowq : ℚ) (evs : List (ℚ × ServerEvent)),
      ChainFrom t0 evs → chainEnd t0 evs ≤ nowq →
      0 ≤ getAuthoritativeTime nowq
          ((runServer { state := initialSessionState t0, lastChange := fun _ => none } evs).1).state := by
  intro t0 nowq evs hc hend
  have hinv := runServer_nonneg_invariant evs
    { state := initialSessionState t0, lastChange := fun _ => none } t0
    (le_refl 0) (le_refl t0) hc
  set sf := ((runServer { state := initialSessionState t0, lastChange := fun _ => none } evs).1).state
  unfold getAuthoritativeTime
  split
  · exact hinv.1
  · have h1 : 0 ≤ nowq - sf.lastUpdatedAt := by
      have := le_trans hinv.2 hend
      linarith
    have h2 : (0 : ℚ) ≤ (nowq - sf.lastUpdatedAt) / 1000 := by positivity
    linarith [hinv.1]

/-- Witness for C9: a concrete chain of one play mutation with a
non-negative hint, observed at a later reading. -/
theorem authoritativeTime_nonneg_witness :
    ChainFrom 0 [((1000 : ℚ), ServerEvent.play ("c1") 5)]
    ∧ chainEnd 0 [((1000 : ℚ), ServerEvent.play ("c1") 5)] ≤ (2000 : ℚ)
    ∧ 0 ≤ getAuthoritativeTime 2000
        ((runServer { state := initialSessionState 0, lastChange := fun _ => none }
          [((1000 : ℚ), ServerEvent.play ("c1") 5)]).1).state := by
  have hc : ChainFrom 0 [((1000 : ℚ), ServerEvent.play ("c1") 5)] := by
    refine ⟨by norm_num, ?_, trivial⟩
    show (0 : ℚ) ≤ 5
    norm_num
  have hend : chainEnd 0 [((1000 : ℚ), ServerEvent.play ("c1") 5)] ≤ (2000 : ℚ) := by
    show (1000 : ℚ) ≤ 2000
    norm_num
  exact ⟨hc, hend, authoritativeTime_nonneg 0 2000 _ hc hend⟩

/-- Payload of the client-side play/pause/seek broadcasts in
`useSessionState.ts` (`PlayBroadcastPayload` and its two identical
siblings carry `time`, `seq`, `lastUpdatedAt`, `username`). -/
structure ClientBroadcastPayload where
  time : ℚ
  seq : ℤ
  lastUpdatedAt : ℚ
  username : String
deriving DecidableEq

/-- Payload of the client-side `session:videoChange` broadcast. -/
structure ClientVideoChangePayload where
  videoId : String
  seq : ℤ
  lastUpdatedAt : ℚ
  username : String
deriving DecidableEq

/-- The playback fields of the client's `sessionState` touched by the
broadcast handlers (the `users` map is never read or written by
them). -/
structure ClientSession where
  videoId : String
  playbackTime : ℚ
  isPlaying : Bool
deriving DecidableEq

/-- Per-client reconciliation state of `useSessionState.ts`:
`lastSeqRef`, the optional `sessionState`, the `lastAction` banner,
`hasJoinedRef`, the player handle reduced to its
`getCurrentTime()` reading when present, and the two socket ids
compared by the `isFromMe` test (`socket.id` and
`mySocketIdRef.current`). -/
structure ClientState where
  lastSeq : ℤ
  session : Option ClientSession
  lastAction : Option (String × String)
  hasJoined : Bool
  player : Option ℚ
  socketId : String
  mySocketId : String
deriving DecidableEq

/-- Calls the broadcast handlers can issue on the local player. -/
inductive PlayerCall where
  | seekTo (time : ℚ)
  | playVideo
  | pauseVideo
deriving DecidableEq

/-- The `PLAY_BROADCAST` handler of `useSessionState.ts`: stale guard
first; then the action banner, the threshold-gated seek (tight 0.3 s
for events from another client, loose 1.0 s for the client's own
echo), an unconditional `playVideo`, and the session-state merge. -/
def handlePlayBroadcast (cs : ClientState) (data : ClientBroadcastPayload) :
    ClientState × List PlayerCall :=
  if data.seq ≤ cs.lastSeq then (cs, [])
  else
    let isFromMe := cs.socketId == cs.mySocketId
    let calls : List PlayerCall :=
      match cs.player with
      | some localTime =>
        if cs.hasJoined then
          (if !isFromMe && decide ((3 : ℚ) / 10 < |data.time - localTime|) then
            [PlayerCall.seekTo data.time]
          else if isFromMe && decide ((1 : ℚ) < |data.time - localTime|) then
            [PlayerCall.seekTo data.time]
          else []) ++ [PlayerCall.playVideo]
        else []
      | none => []
    ({ cs with
        lastSeq := data.seq
        lastAction := some (("played"), data.username)
        session := cs.session.map fun sess =>
          { sess with isPlaying := true, playbackTime := data.time } },
     calls)

/-- The `PAUSE_BROADCAST` handler of `useSessionState.ts`, structured
exactly like the play handler with `pauseVideo` in place of
`playVideo`. -/
def handlePauseBroadcast (cs : ClientState) (data : ClientBroadcastPayload) :
    ClientState × List PlayerCall :=
  if data.seq ≤ cs.lastSeq then (cs, [])
  else
    let isFromMe := cs.socketId == cs.mySocketId
    let calls : List PlayerCall :=
      match cs.player with
      | some localTime =>
        if cs.hasJoined then
          (if !isFromMe && decide ((3 : ℚ) / 10 < |data.time - localTime|) then
            [PlayerCall.seekTo data.time]
          else if isFromMe && decide ((1 : ℚ) < |data.time - localTime|) then
            [PlayerCall.seekTo data.time]
          else []) ++ [PlayerCall.pauseVideo]
        else []
      | none => []
    ({ cs with
        lastSeq := data.seq
        lastAction := some (("paused"), data.username)
        session := cs.session.map fun sess =>
          { sess with isPlaying := false, playbackTime := data.time } },
     calls)

/-- The `SEEK_BROADCAST` handler of `useSessionState.ts`: stale guard,
the banner only for events from another client, and an unconditional
seek when a player is attached and the user has joined. -/
def handleSeekBroadcast (cs : ClientState) (data : ClientBroadcastPayload) :
    ClientState × List PlayerCall :=
  if data.seq ≤ cs.lastSeq then (cs, [])
  else
    let isFromMe := cs.socketId == cs.mySocketId
    let calls : List PlayerCall :=
      match cs.player with
      | some _ => if cs.hasJoined then [PlayerCall.seekTo data.time] else []
      | none => []
    ({ cs with
        lastSeq := data.seq
        lastAction := if isFromMe then cs.lastAction else some (("seeked"), data.username)
        session := cs.session.map fun sess => { sess with playbackTime := data.time } },
     calls)

/-- The `VIDEO_CHANGE` handler of `useSessionState.ts`: stale guard,
then `lastSeq` is set to the incoming `seq` (the stale-tab branch and
the normal branch of the source are textually identical), the banner
is set, and the session keeps the new video id with `playbackTime` 0
and `isPlaying` false; no player call is made. -/
def handleVideoChangeBroadcast (cs : ClientState) (data : ClientVideoChangePayload) :
    ClientState × List PlayerCall :=
  if data.seq ≤ cs.lastSeq then (cs, [])
  else
    let newSeq := if data.seq - cs.lastSeq > 10 then data.seq else data.seq
    ({ cs with
        lastSeq := newSeq
        lastAction := some (("changed video"), data.username)
        session := cs.session.map fun _ =>
          { videoId := data.videoId, playbackTime := 0, isPlaying := false } },
     [])

/-- C3: a broadcast whose `seq` is at most the client's last applied
sequence number (equality included) is discarded entirely by all four
handlers: the client state — `lastSeq` included — is returned
unchanged and no player call is issued. -/
theorem stale_broadcast_discarded :
    ∀ (cs : ClientState) (d : ClientBroadcastPayload) (dv : ClientVideoChangePayload),
      (d.seq ≤ cs.lastSeq →
        handlePlayBroadcast cs d = (cs, [])
          ∧ handlePauseBroadcast cs d = (cs, [])
          ∧ handleSeekBroadcast cs d = (cs, []))
      ∧ (dv.seq ≤ cs.lastSeq → handleVideoChangeBroadcast cs dv = (cs, [])) := by
  intro cs d dv
  constructor
  · intro h
    refine ⟨?_, ?_, ?_⟩ <;>
      simp only [handlePlayBroadcast, handlePauseBroadcast, handleSeekBroadcast, if_pos h]
  · intro h
    simp only [handleVideoChangeBroadcast, if_pos h]

/-- Witness for C3: a duplicate delivery with `seq` equal to the
client's `lastSeq` leaves everything untouched. -/
theorem stale_broadcast_discarded_witness :
    handlePlayBroadcast
        { lastSeq := 1, session := none, lastAction := none, hasJoined := true,
          player := none, socketId := "a", mySocketId := "a" }
        { time := 12, seq := 1, lastUpdatedAt := 0, username := "u" }
      = (⟨1, none, none, true, none, "a", "a"⟩, []) :=
  ((stale_broadcast_discarded
      { lastSeq := 1, session := none, lastAction := none, hasJoined := true,
        player := none, socketId := "a", mySocketId := "a" }
      { time := 12, seq := 1, lastUpdatedAt := 0, username := "u" }
      { videoId := "v", seq := 0, lastUpdatedAt := 0, username := "u" }).1
    (by norm_num)).1

/-- C7 (code bug): the `isFromMe` test of `useSessionState.ts`
compares `socket.id` with the client's own stored
`mySocketIdRef.current` and never inspects the broadcast — the payload
carries no originator id — so in normal operation every broadcast is
classified as the client's own and judged against the loose 1.0 s
threshold.  Concretely: a client whose two ids agree, joined, player
at local position 0, receives a fresh play or pause broadcast caused
by another client at position 1/2.  The 0.5 s gap exceeds the tight
0.3 s threshold (and not the loose one), so the claim demands a
corrective seek, yet for every originator username the handlers issue
only the play/pause call and no `seekTo`. -/
theorem tight_threshold_never_applied :
    ((3 : ℚ) / 10 < |(1 : ℚ) / 2 - 0| ∧ ¬ ((1 : ℚ) < |(1 : ℚ) / 2 - 0|))
    ∧ (∀ u : String,
        (handlePlayBroadcast ⟨0, none, none, true, some 0, "a", "a"⟩
            ⟨1 / 2, 1, 0, u⟩).2 = [PlayerCall.playVideo]
        ∧ (handlePauseBroadcast ⟨0, none, none, true, some 0, "a", "a"⟩
            ⟨1 / 2, 1, 0, u⟩).2 = [PlayerCall.pauseVideo]) := by
  have habs : |(1 : ℚ) / 2 - 0| = 1 / 2 := by
    rw [sub_zero]
    exact abs_of_pos (by norm_num)
  refine ⟨⟨by rw [habs]; norm_num, by rw [habs]; norm_num⟩, ?_⟩
  intro u
  have h2 : decide ((1 : ℚ) < |(1 : ℚ) / 2 - 0|) = false := by
    rw [decide_eq_false_iff_not, habs]
    norm_num
  constructor <;>
  · simp only [handlePlayBroadcast, handlePauseBroadcast]
    rw [if_neg (by decide)]
    simp [h2]
    rw [abs_of_pos] <;> norm_num

end WatchParty
